import Mathlib

/-!
Verification of the OpenGPSR core services (versioning, provenance, claim
ledger, responsibility resolver, identifier dedup) against their
natural-language specification.

The TypeScript services are shallowly embedded as pure Lean functions over
explicit store states.  Conventions of the embedding:

* UUIDs / database ids are modelled as `Nat`, handed out by a per-table
  `next…Id` counter (creation order); `prisma.….create` appends the new row
  at the end of the row list, `update` replaces the matching row in place.
* JS `Date` values are modelled as `Int` (milliseconds since the epoch);
  the current time is an explicit argument where the code calls `new Date()`.
* Fallible operations return `(Except Err α) × σ`: an `Except.error` result
  is produced before any write (or the transaction rolled back), so the
  returned state is the input state unchanged.
* `value.toUpperCase()` / `.trim()` are modelled by `jsToUpper` / `jsTrim`
  over the character list (ASCII case mapping, as exercised by the data).
* The normalization collaborators (`normalizeName` and friends) are pure
  functions excluded from the specified core; inputs of the modelled
  operations carry already-normalized values.
* `AuditLog` writes and the `EntityRole` / `Evidence` side tables are not
  modelled: no verified property reads them back.
-/

namespace OpenGPSR

/-- JS `String.prototype.toUpperCase`, restricted to per-character mapping. -/
def jsToUpper (s : String) : String :=
  String.mk (s.data.map Char.toUpper)

/-- JS `String.prototype.trim`: drop leading and trailing whitespace. -/
def jsTrim (s : String) : String :=
  String.mk (((s.data.dropWhile Char.isWhitespace).reverse.dropWhile
    Char.isWhitespace).reverse)

/-- Error taxonomy of `utils/errors.ts` (the constructor argument is the
string passed at the throw site). -/
inductive Err where
  | notFound (resource : String)
  | validation (message : String)
deriving DecidableEq, Repr

/-! ## Source registry (`services/sourceService.ts`) -/

/-- `SourceType` enum. -/
inductive SourceType where
  | COMMUNITY | PRIMARY_SOURCE | OFFICIAL_REGISTRY | PRODUCT_LABEL
  | WEBSITE | API_IMPORT | MANUAL_ENTRY | SAFETY_GATE
deriving DecidableEq, Repr

/-- A `Source` row. -/
structure Source where
  id : Nat
  sourceType : SourceType
  sourceIdentifier : Option String
  description : Option String
  sourceUrl : Option String
  sourceName : Option String
  trustNote : Option String
deriving DecidableEq, Repr

/-- Input of `SourceService.findOrCreate`. -/
structure CreateSourceInput where
  sourceType : SourceType
  sourceIdentifier : Option String := none
  description : Option String := none
  sourceUrl : Option String := none
  sourceName : Option String := none
deriving DecidableEq, Repr

/-- The `Source` table. -/
structure SourceState where
  sources : List Source
  nextSourceId : Nat
deriving DecidableEq, Repr

namespace SourceService

/-- The `findFirst` lookup by `(sourceType, sourceIdentifier)` performed by
`findOrCreate` when `sourceIdentifier` is given. -/
def sourceLookup (sources : List Source) (d : CreateSourceInput) : Option Source :=
  match d.sourceIdentifier with
  | some _ =>
      sources.find? (fun s =>
        s.sourceType == d.sourceType && s.sourceIdentifier == d.sourceIdentifier)
  | none => none

/-- `SourceService.findOrCreate`.  The `withP2002Retry` wrapper re-runs its
body on unique-constraint races; executed sequentially this collapses to the
initial lookup, the in-retry double-check, and the create. -/
def findOrCreate (st : SourceState) (d : CreateSourceInput) :
    Source × SourceState :=
  match sourceLookup st.sources d with
  | some existing => (existing, st)
  | none =>
      match sourceLookup st.sources d with
      | some existing => (existing, st)
      | none =>
          let s : Source :=
            { id := st.nextSourceId
              sourceType := d.sourceType
              sourceIdentifier := d.sourceIdentifier
              description := d.description
              sourceUrl := d.sourceUrl
              sourceName := d.sourceName
              trustNote := none }
          (s, { sources := st.sources ++ [s], nextSourceId := st.nextSourceId + 1 })

end SourceService

/-- C9 helper: the row created by `findOrCreate` matches its own lookup key. -/
theorem sourceLookup_append_self (st : SourceState) (d : CreateSourceInput)
    (sid : String) (h : d.sourceIdentifier = some sid) (s : Source)
    (hty : s.sourceType = d.sourceType) (hid : s.sourceIdentifier = d.sourceIdentifier)
    (hnone : SourceService.sourceLookup st.sources d = none) :
    SourceService.sourceLookup (st.sources ++ [s]) d = some s := by
  unfold SourceService.sourceLookup at *
  rw [h] at hnone ⊢
  dsimp only at hnone ⊢
  rw [List.find?_append, hnone]
  simp [hty, hid, h]

/-- C9: calling `findOrCreate` twice in sequence with the same input, with
`sourceIdentifier` present, yields the same source id both times and the
second call leaves the source table unchanged (no new row). -/
theorem findOrCreate_idempotent (st : SourceState) (d : CreateSourceInput)
    (sid : String) (h : d.sourceIdentifier = some sid) :
    (SourceService.findOrCreate (SourceService.findOrCreate st d).2 d).1.id
        = (SourceService.findOrCreate st d).1.id
      ∧ (SourceService.findOrCreate (SourceService.findOrCreate st d).2 d).2
        = (SourceService.findOrCreate st d).2 := by
  unfold SourceService.findOrCreate
  match hl : SourceService.sourceLookup st.sources d with
  | some existing =>
      simp [hl]
  | none =>
      simp only [hl]
      have hsel := sourceLookup_append_self st d sid h
        { id := st.nextSourceId, sourceType := d.sourceType,
          sourceIdentifier := d.sourceIdentifier, description := d.description,
          sourceUrl := d.sourceUrl, sourceName := d.sourceName, trustNote := none }
        rfl rfl hl
      simp [hsel]

/-- C9 witness: a concrete run (empty table, identifier `"krs"`). -/
theorem findOrCreate_idempotent_witness :
    (SourceService.findOrCreate
        (SourceService.findOrCreate ⟨[], 0⟩
          ⟨SourceType.OFFICIAL_REGISTRY, some "krs", none, none, none⟩).2
        ⟨SourceType.OFFICIAL_REGISTRY, some "krs", none, none, none⟩).1.id
      = (SourceService.findOrCreate ⟨[], 0⟩
          ⟨SourceType.OFFICIAL_REGISTRY, some "krs", none, none, none⟩).1.id
    ∧ (SourceService.findOrCreate
        (SourceService.findOrCreate ⟨[], 0⟩
          ⟨SourceType.OFFICIAL_REGISTRY, some "krs", none, none, none⟩).2
        ⟨SourceType.OFFICIAL_REGISTRY, some "krs", none, none, none⟩).2
      = (SourceService.findOrCreate ⟨[], 0⟩
          ⟨SourceType.OFFICIAL_REGISTRY, some "krs", none, none, none⟩).2 :=
  findOrCreate_idempotent ⟨[], 0⟩
    ⟨SourceType.OFFICIAL_REGISTRY, some "krs", none, none, none⟩ "krs" rfl

/-! ## Claim / evidence ledger (`services/claimService.ts`) -/

/-- `ClaimStatus` type alias of `claimService.ts`. -/
inductive ClaimStatus where
  | PROPOSED | ACCEPTED | REJECTED | DISPUTED | SUPERSEDED
deriving DecidableEq, Repr

/-- `ClaimSubject` type alias of `claimService.ts`. -/
inductive ClaimSubject where
  | ENTITY | BRAND | PRODUCT | RESPONSIBILITY | CONTACT | ADDRESS
deriving DecidableEq, Repr

/-- A `Claim` row (fields touched by the modelled operations). -/
structure Claim where
  id : Nat
  subject : ClaimSubject
  subjectId : String
  /-- Source field `attribute` (a Lean keyword). -/
  attr : String
  value : String
  sourceId : Nat
  confidence : Int
  status : ClaimStatus
  supersededById : Option Nat
  reviewedBy : Option String
  reviewedAt : Option Int
  reviewNotes : Option String
deriving DecidableEq, Repr

/-- The claim ledger state: the `Source` table it validates against plus the
`Claim` table.  `Evidence` rows are created alongside but never read back by
the verified operations, so they are not modelled. -/
structure ClaimState where
  sources : List Source
  claims : List Claim
  nextClaimId : Nat
deriving DecidableEq, Repr

/-- Input of `ClaimService.submit` (evidence omitted, see `ClaimState`). -/
structure SubmitClaimInput where
  subject : ClaimSubject
  subjectId : String
  /-- Source field `attribute` (a Lean keyword). -/
  attr : String
  value : String
  sourceId : Nat
  confidence : Option Int := none
deriving DecidableEq, Repr

/-- The `newClaimData` argument of `ClaimService.supersede`. -/
structure SupersedeInput where
  value : String
  sourceId : Nat
  confidence : Option Int := none
deriving DecidableEq, Repr

namespace ClaimService

/-- `claimService.submit`: validates the source exists, then creates the
claim with status `PROPOSED` and `confidence ?? 50`. -/
def submit (st : ClaimState) (d : SubmitClaimInput) :
    (Except Err Claim) × ClaimState :=
  match st.sources.find? (fun s => s.id == d.sourceId) with
  | none => (.error (.notFound "Source not found"), st)
  | some _ =>
      let c : Claim :=
        { id := st.nextClaimId
          subject := d.subject
          subjectId := d.subjectId
          attr := d.attr
          value := d.value
          sourceId := d.sourceId
          confidence := d.confidence.getD 50
          status := .PROPOSED
          supersededById := none
          reviewedBy := none
          reviewedAt := none
          reviewNotes := none }
      (.ok c, { st with claims := st.claims ++ [c], nextClaimId := st.nextClaimId + 1 })

/-- `claimService.accept`: `prisma.claim.update` sets the status to
`ACCEPTED` unconditionally (a missing row surfaces as a not-found error). -/
def accept (st : ClaimState) (now : Int) (claimId : Nat) (reviewedBy : String)
    (notes : Option String) : (Except Err Claim) × ClaimState :=
  match st.claims.find? (fun c => c.id == claimId) with
  | none => (.error (.notFound "Claim"), st)
  | some c =>
      let c' := { c with status := .ACCEPTED, reviewedBy := some reviewedBy,
                         reviewedAt := some now, reviewNotes := notes }
      (.ok c',
        { st with claims := st.claims.map (fun x => if x.id == claimId then c' else x) })

/-- `claimService.reject`: sets the status to `REJECTED` unconditionally. -/
def reject (st : ClaimState) (now : Int) (claimId : Nat) (reviewedBy : String)
    (notes : String) : (Except Err Claim) × ClaimState :=
  match st.claims.find? (fun c => c.id == claimId) with
  | none => (.error (.notFound "Claim"), st)
  | some c =>
      let c' := { c with status := .REJECTED, reviewedBy := some reviewedBy,
                         reviewedAt := some now, reviewNotes := some notes }
      (.ok c',
        { st with claims := st.claims.map (fun x => if x.id == claimId then c' else x) })

/-- `claimService.dispute`: sets the status to `DISPUTED` unconditionally
(`disputedBy` is only forwarded to the audit log). -/
def dispute (st : ClaimState) (claimId : Nat) (disputedBy : String)
    (reason : String) : (Except Err Claim) × ClaimState :=
  match st.claims.find? (fun c => c.id == claimId) with
  | none => (.error (.notFound "Claim"), st)
  | some c =>
      let c' := { c with status := .DISPUTED, reviewNotes := some reason }
      (.ok c',
        { st with claims := st.claims.map (fun x => if x.id == claimId then c' else x) })

/-- `claimService.supersede`: in one transaction, marks the old claim
`SUPERSEDED` and creates the successor, which carries
`supersededById = oldClaimId`; the old claim's own `supersededById` field is
not written. -/
def supersede (st : ClaimState) (oldClaimId : Nat) (nd : SupersedeInput) :
    (Except Err Claim) × ClaimState :=
  match st.claims.find? (fun c => c.id == oldClaimId) with
  | none => (.error (.notFound "Claim not found"), st)
  | some oldClaim =>
      let newClaim : Claim :=
        { id := st.nextClaimId
          subject := oldClaim.subject
          subjectId := oldClaim.subjectId
          attr := oldClaim.attr
          value := nd.value
          sourceId := nd.sourceId
          confidence := nd.confidence.getD 50
          status := .PROPOSED
          supersededById := some oldClaimId
          reviewedBy := none
          reviewedAt := none
          reviewNotes := none }
      (.ok newClaim,
        { st with
          claims :=
            (st.claims.map (fun x =>
              if x.id == oldClaimId then { x with status := .SUPERSEDED } else x))
              ++ [newClaim]
          nextClaimId := st.nextClaimId + 1 })

end ClaimService

/-- C2 counterexample: superseding the only claim (id 0) creates successor
id 1, but the link is stored on the successor (`supersededById = some 0`)
while the old claim's own `supersededById` stays `none` — the successor is
not reachable from the old claim through `supersededById`. -/
theorem supersede_link_direction_cex :
    (((ClaimService.supersede
          { sources := [],
            claims := [⟨0, .ENTITY, "e1", "address", "v1", 7, 50, .PROPOSED,
              none, none, none, none⟩],
            nextClaimId := 1 }
          0 ⟨"v2", 7, none⟩).2.claims.find? (fun c => c.id == 0)).map
        Claim.status = some .SUPERSEDED)
    ∧ (((ClaimService.supersede
          { sources := [],
            claims := [⟨0, .ENTITY, "e1", "address", "v1", 7, 50, .PROPOSED,
              none, none, none, none⟩],
            nextClaimId := 1 }
          0 ⟨"v2", 7, none⟩).2.claims.find? (fun c => c.id == 0)).map
        Claim.supersededById = some none)
    ∧ (((ClaimService.supersede
          { sources := [],
            claims := [⟨0, .ENTITY, "e1", "address", "v1", 7, 50, .PROPOSED,
              none, none, none, none⟩],
            nextClaimId := 1 }
          0 ⟨"v2", 7, none⟩).2.claims.find? (fun c => c.id == 1)).map
        Claim.supersededById = some (some 0)) := by
  decide

/-- C2 (amended): `supersede` on an existing claim marks it `SUPERSEDED` and,
in the same transaction, creates a `PROPOSED` successor for the same
`(subject, subjectId, attribute)` which carries the link in the reverse
direction, `successor.supersededById = oldClaimId`; the old claim's own
`supersededById` is not written.  If no claim previously pointed at
`oldClaimId`, exactly one does afterwards (the successor). -/
theorem supersede_amended (st : ClaimState) (oldId : Nat) (nd : SupersedeInput)
    (oldClaim : Claim)
    (hfind : st.claims.find? (fun c => c.id == oldId) = some oldClaim)
    (hfresh : ∀ x ∈ st.claims, x.id < st.nextClaimId) :
    ∃ newClaim,
      (ClaimService.supersede st oldId nd).1 = .ok newClaim
      ∧ newClaim.supersededById = some oldId
      ∧ newClaim.id = st.nextClaimId
      ∧ newClaim.status = .PROPOSED
      ∧ newClaim.subject = oldClaim.subject
      ∧ newClaim.subjectId = oldClaim.subjectId
      ∧ newClaim.attr = oldClaim.attr
      ∧ (ClaimService.supersede st oldId nd).2.claims
          = (st.claims.map (fun x =>
              if x.id == oldId then { x with status := ClaimStatus.SUPERSEDED } else x))
            ++ [newClaim]
      ∧ (∀ x ∈ (ClaimService.supersede st oldId nd).2.claims,
            x.id = oldId → x.status = .SUPERSEDED)
      ∧ (st.claims.countP (fun c => c.supersededById == some oldId) = 0 →
          (ClaimService.supersede st oldId nd).2.claims.countP
            (fun c => c.supersededById == some oldId) = 1) := by
  have hmem := List.mem_of_find?_eq_some hfind
  have hoid : oldClaim.id = oldId := by
    have := List.find?_some hfind
    simpa using this
  unfold ClaimService.supersede
  rw [hfind]
  refine ⟨_, rfl, rfl, rfl, rfl, rfl, rfl, rfl, rfl, ?_, ?_⟩
  · intro x hx hxid
    dsimp only at hx
    rcases List.mem_append.mp hx with hx | hx
    · rcases List.mem_map.mp hx with ⟨y, hy, hfy⟩
      by_cases hyid : (y.id == oldId) = true
      · rw [if_pos hyid] at hfy
        rw [← hfy]
      · rw [if_neg hyid] at hfy
        subst hfy
        exact absurd (by simp [hxid]) hyid
    · rcases List.mem_singleton.mp hx with rfl
      dsimp at hxid
      have := hfresh oldClaim hmem
      omega
  · intro h0
    dsimp only
    rw [List.countP_append, List.countP_map]
    have hmapcount :
        st.claims.countP ((fun c => c.supersededById == some oldId) ∘ (fun x =>
          if x.id == oldId then { x with status := ClaimStatus.SUPERSEDED } else x))
          = st.claims.countP (fun c => c.supersededById == some oldId) := by
      refine List.countP_congr ?_
      intro x _
      by_cases hxid : x.id = oldId <;> simp [hxid]
    rw [hmapcount, h0]
    simp [List.countP, List.countP.go]

/-- C2 witness: the amended theorem applied to the concrete one-claim store. -/
theorem supersede_amended_witness :
    ∃ newClaim,
      (ClaimService.supersede
          { sources := [],
            claims := [⟨0, .ENTITY, "e1", "address", "v1", 7, 50, .PROPOSED,
              none, none, none, none⟩],
            nextClaimId := 1 }
          0 ⟨"v2", 7, none⟩).1 = .ok newClaim
      ∧ newClaim.supersededById = some 0
      ∧ newClaim.id = 1
      ∧ newClaim.status = .PROPOSED
      ∧ newClaim.subject = ClaimSubject.ENTITY
      ∧ newClaim.subjectId = "e1"
      ∧ newClaim.attr = "address"
      ∧ (ClaimService.supersede
          { sources := [],
            claims := [⟨0, .ENTITY, "e1", "address", "v1", 7, 50, .PROPOSED,
              none, none, none, none⟩],
            nextClaimId := 1 }
          0 ⟨"v2", 7, none⟩).2.claims
          = ([⟨0, .ENTITY, "e1", "address", "v1", 7, 50, ClaimStatus.PROPOSED,
              none, none, none, none⟩].map (fun x =>
              if x.id == 0 then { x with status := ClaimStatus.SUPERSEDED } else x))
            ++ [newClaim]
      ∧ (∀ x ∈ (ClaimService.supersede
          { sources := [],
            claims := [⟨0, .ENTITY, "e1", "address", "v1", 7, 50, .PROPOSED,
              none, none, none, none⟩],
            nextClaimId := 1 }
          0 ⟨"v2", 7, none⟩).2.claims,
            x.id = 0 → x.status = .SUPERSEDED)
      ∧ (([⟨0, .ENTITY, "e1", "address", "v1", 7, 50, ClaimStatus.PROPOSED,
              none, none, none, none⟩] : List Claim).countP
              (fun c => c.supersededById == some 0) = 0 →
          (ClaimService.supersede
          { sources := [],
            claims := [⟨0, .ENTITY, "e1", "address", "v1", 7, 50, .PROPOSED,
              none, none, none, none⟩],
            nextClaimId := 1 }
          0 ⟨"v2", 7, none⟩).2.claims.countP
            (fun c => c.supersededById == some 0) = 1) :=
  supersede_amended
    { sources := [],
      claims := [⟨0, .ENTITY, "e1", "address", "v1", 7, 50, .PROPOSED,
        none, none, none, none⟩],
      nextClaimId := 1 }
    0 ⟨"v2", 7, none⟩
    ⟨0, .ENTITY, "e1", "address", "v1", 7, 50, .PROPOSED, none, none, none, none⟩
    (by decide) (by decide)

/-- C3 counterexample: a claim already in the terminal status `ACCEPTED`
(id 0) is still moved to `REJECTED` by `reject` — no guard makes
`ACCEPTED`/`REJECTED` terminal. -/
theorem claim_terminal_not_enforced_cex :
    (((ClaimService.reject
          { sources := [],
            claims := [⟨0, .ENTITY, "e1", "address", "v1", 7, 50, .ACCEPTED,
              none, some "rev", some 1000, none⟩],
            nextClaimId := 1 }
          2000 0 "rev2" "wrong").2.claims.find? (fun c => c.id == 0)).map
        Claim.status = some .REJECTED)
    ∧ (((ClaimService.reject
          { sources := [],
            claims := [⟨0, .ENTITY, "e1", "address", "v1", 7, 50, .ACCEPTED,
              none, some "rev", some 1000, none⟩],
            nextClaimId := 1 }
          2000 0 "rev2" "wrong").1.toOption.map Claim.status) = some .REJECTED) := by
  decide

/-- C3 (amended): no lifecycle guard exists — `accept`, `reject`, `dispute`
and `supersede` each set the target claim's status to `ACCEPTED`,
`REJECTED`, `DISPUTED` resp. `SUPERSEDED` unconditionally, for any existing
claim, whatever its current status (in particular `ACCEPTED` and `REJECTED`
are not terminal). -/
theorem claim_ops_unconditional (st : ClaimState) (now : Int) (cid : Nat)
    (rb disputedBy : String) (onotes : Option String) (rnotes reason : String)
    (nd : SupersedeInput) (c : Claim)
    (hc : c ∈ st.claims) (hid : c.id = cid)
    (hfresh : ∀ x ∈ st.claims, x.id < st.nextClaimId) :
    (∀ x ∈ (ClaimService.accept st now cid rb onotes).2.claims,
        x.id = cid → x.status = .ACCEPTED)
    ∧ (∀ x ∈ (ClaimService.reject st now cid rb rnotes).2.claims,
        x.id = cid → x.status = .REJECTED)
    ∧ (∀ x ∈ (ClaimService.dispute st cid disputedBy reason).2.claims,
        x.id = cid → x.status = .DISPUTED)
    ∧ (∀ x ∈ (ClaimService.supersede st cid nd).2.claims,
        x.id = cid → x.status = .SUPERSEDED) := by
  have hsome : (st.claims.find? (fun x => x.id == cid)).isSome := by
    rw [List.find?_isSome]
    exact ⟨c, hc, by simp [hid]⟩
  obtain ⟨c0, hc0⟩ := Option.isSome_iff_exists.mp hsome
  have hmem0 := List.mem_of_find?_eq_some hc0
  have hid0 : c0.id = cid := by simpa using List.find?_some hc0
  refine ⟨?_, ?_, ?_, ?_⟩
  · intro x hx hxid
    unfold ClaimService.accept at hx
    rw [hc0] at hx
    dsimp only at hx
    rcases List.mem_map.mp hx with ⟨y, _, hfy⟩
    by_cases hyid : (y.id == cid) = true
    · rw [if_pos hyid] at hfy
      rw [← hfy]
    · rw [if_neg hyid] at hfy
      subst hfy
      exact absurd (by simp [hxid]) hyid
  · intro x hx hxid
    unfold ClaimService.reject at hx
    rw [hc0] at hx
    dsimp only at hx
    rcases List.mem_map.mp hx with ⟨y, _, hfy⟩
    by_cases hyid : (y.id == cid) = true
    · rw [if_pos hyid] at hfy
      rw [← hfy]
    · rw [if_neg hyid] at hfy
      subst hfy
      exact absurd (by simp [hxid]) hyid
  · intro x hx hxid
    unfold ClaimService.dispute at hx
    rw [hc0] at hx
    dsimp only at hx
    rcases List.mem_map.mp hx with ⟨y, _, hfy⟩
    by_cases hyid : (y.id == cid) = true
    · rw [if_pos hyid] at hfy
      rw [← hfy]
    · rw [if_neg hyid] at hfy
      subst hfy
      exact absurd (by simp [hxid]) hyid
  · intro x hx hxid
    unfold ClaimService.supersede at hx
    rw [hc0] at hx
    dsimp only at hx
    rcases List.mem_append.mp hx with hx | hx
    · rcases List.mem_map.mp hx with ⟨y, _, hfy⟩
      by_cases hyid : (y.id == cid) = true
      · rw [if_pos hyid] at hfy
        rw [← hfy]
      · rw [if_neg hyid] at hfy
        subst hfy
        exact absurd (by simp [hxid]) hyid
    · rcases List.mem_singleton.mp hx with rfl
      dsimp at hxid
      have := hfresh c0 hmem0
      omega

/-- C3 witness: the amended theorem applied to a one-claim store holding an
`ACCEPTED` claim. -/
theorem claim_ops_unconditional_witness :
    (∀ x ∈ (ClaimService.accept
        { sources := [],
          claims := [⟨0, .ENTITY, "e1", "address", "v1", 7, 50, .ACCEPTED,
            none, some "rev", some 1000, none⟩],
          nextClaimId := 1 } 2000 0 "r2" none).2.claims,
        x.id = 0 → x.status = .ACCEPTED)
    ∧ (∀ x ∈ (ClaimService.reject
        { sources := [],
          claims := [⟨0, .ENTITY, "e1", "address", "v1", 7, 50, .ACCEPTED,
            none, some "rev", some 1000, none⟩],
          nextClaimId := 1 } 2000 0 "r2" "bad").2.claims,
        x.id = 0 → x.status = .REJECTED)
    ∧ (∀ x ∈ (ClaimService.dispute
        { sources := [],
          claims := [⟨0, .ENTITY, "e1", "address", "v1", 7, 50, .ACCEPTED,
            none, some "rev", some 1000, none⟩],
          nextClaimId := 1 } 0 "d" "why").2.claims,
        x.id = 0 → x.status = .DISPUTED)
    ∧ (∀ x ∈ (ClaimService.supersede
        { sources := [],
          claims := [⟨0, .ENTITY, "e1", "address", "v1", 7, 50, .ACCEPTED,
            none, some "rev", some 1000, none⟩],
          nextClaimId := 1 } 0 ⟨"v2", 7, none⟩).2.claims,
        x.id = 0 → x.status = .SUPERSEDED) :=
  claim_ops_unconditional
    { sources := [],
      claims := [⟨0, .ENTITY, "e1", "address", "v1", 7, 50, .ACCEPTED,
        none, some "rev", some 1000, none⟩],
      nextClaimId := 1 }
    2000 0 "r2" "d" none "bad" "why" ⟨"v2", 7, none⟩
    ⟨0, .ENTITY, "e1", "address", "v1", 7, 50, .ACCEPTED, none, some "rev",
      some 1000, none⟩
    (by decide) rfl (by decide)

/-! ## Responsibility resolver (`services/productResponsibilityService.ts`) -/

/-- `RoleType` enum (declaration order gives the database sort order). -/
inductive RoleType where
  | MANUFACTURER | IMPORTER | RESPONSIBLE_PERSON | AUTHORIZED_REP
  | DISTRIBUTOR | FULFILLMENT_PROVIDER
deriving DecidableEq, Repr

/-- Position of a role in the enum declaration (for `orderBy role asc`). -/
def RoleType.pos : RoleType → Nat
  | .MANUFACTURER => 0
  | .IMPORTER => 1
  | .RESPONSIBLE_PERSON => 2
  | .AUTHORIZED_REP => 3
  | .DISTRIBUTOR => 4
  | .FULFILLMENT_PROVIDER => 5

/-- `ProductResponsibility.status` values. -/
inductive RespStatus where
  | ACTIVE | HISTORICAL | DISPUTED
deriving DecidableEq, Repr

/-- A `ProductResponsibility` row. -/
structure Responsibility where
  id : Nat
  productId : String
  countryCode : String
  entityId : String
  role : RoleType
  sourceId : String
  confidence : Int
  validFrom : Int
  validTo : Option Int
  status : RespStatus
deriving DecidableEq, Repr

/-- State for the responsibility service: the referenced `ProductReference`
and `Entity` tables (ids only — `assign` merely checks existence) and the
`ProductResponsibility` table. -/
structure RespState where
  products : List String
  entities : List String
  rows : List Responsibility
  nextRespId : Nat
deriving DecidableEq, Repr

/-- Argument record of `productResponsibilityService.assign`. -/
structure AssignInput where
  productId : String
  countryCode : String
  entityId : String
  role : RoleType
  sourceId : String
  confidence : Option Int := none
  validFrom : Option Int := none
  validTo : Option Int := none
deriving DecidableEq, Repr

namespace RespService

/-- The `where` clause of `assign`'s `findFirst` for an existing ACTIVE
responsibility of the key (productId, countryCode, role). -/
def activeKeyPred (pid cc : String) (ro : RoleType) (r : Responsibility) : Bool :=
  r.productId == pid && r.countryCode == cc && r.role == ro
    && r.status == RespStatus.ACTIVE

/-- The ACTIVE rows stored for a key (countryCode already upper-cased). -/
def activeFor (rows : List Responsibility) (pid cc : String) (ro : RoleType) :
    List Responsibility :=
  rows.filter (activeKeyPred pid cc ro)

/-- `productResponsibilityService.assign`: validates product and entity,
demotes the existing ACTIVE responsibility for
(productId, upper(countryCode), role) to HISTORICAL with `validTo = now`,
then creates the new ACTIVE row. -/
def assign (st : RespState) (now : Int) (d : AssignInput) :
    (Except Err Responsibility) × RespState :=
  if (st.products.contains d.productId) = false then
    (.error (.notFound "Product not found"), st)
  else if (st.entities.contains d.entityId) = false then
    (.error (.notFound "Entity not found"), st)
  else
    let cc := jsToUpper d.countryCode
    let existing := st.rows.find? (activeKeyPred d.productId cc d.role)
    let rows1 := match existing with
      | some ex => st.rows.map (fun r =>
          if r.id == ex.id then
            { r with status := RespStatus.HISTORICAL, validTo := some now }
          else r)
      | none => st.rows
    let newRow : Responsibility :=
      { id := st.nextRespId
        productId := d.productId
        countryCode := cc
        entityId := d.entityId
        role := d.role
        sourceId := d.sourceId
        confidence := d.confidence.getD 50
        validFrom := d.validFrom.getD now
        validTo := d.validTo
        status := RespStatus.ACTIVE }
    (.ok newRow, { st with rows := rows1 ++ [newRow], nextRespId := st.nextRespId + 1 })

/-- Database ordering `orderBy role asc, confidence desc` of `getForProduct`
(a total preorder; the row list is returned stably sorted by it). -/
def roleConfLe (a b : Responsibility) : Prop :=
  a.role.pos < b.role.pos ∨ (a.role.pos = b.role.pos ∧ b.confidence ≤ a.confidence)

instance : DecidableRel roleConfLe := fun a b =>
  inferInstanceAs (Decidable (_ ∨ _))

instance : IsTotal Responsibility roleConfLe :=
  ⟨fun a b => by unfold roleConfLe; omega⟩

instance : IsTrans Responsibility roleConfLe :=
  ⟨fun a b c hab hbc => by unfold roleConfLe at *; omega⟩

/-- `productResponsibilityService.getForProduct`: dynamic `where` clause
over (productId, status, optional upper-cased countryCode, optional role),
rows returned in the database order `role asc, confidence desc` (JS engine
sorts are stable, so the stable `insertionSort` realizes it).

The signature declares `status: … | undefined = 'ACTIVE'`; a JS default
parameter fires for an omitted AND for an explicitly-`undefined` argument
alike, so inside the body `status` is never `undefined` and the `if
(status)` guard always adds the filter.  `statusArg` is the caller's
argument. -/
def getForProduct (rows : List Responsibility) (productId : String)
    (countryCode : Option String) (role : Option RoleType)
    (statusArg : Option RespStatus) : List Responsibility :=
  let status : Option RespStatus := some (statusArg.getD RespStatus.ACTIVE)
  List.insertionSort roleConfLe (rows.filter (fun r =>
    r.productId == productId
    && (match status with | some s => r.status == s | none => true)
    && (match countryCode with | some cc => r.countryCode == jsToUpper cc | none => true)
    && (match role with | some ro => r.role == ro | none => true)))

/-- The `[validFrom, validTo)` window test of `getResolved`'s HISTORICAL
filter: `validFrom <= targetDate && (!validTo || validTo > targetDate)`. -/
def windowContains (r : Responsibility) (t : Int) : Bool :=
  decide (r.validFrom ≤ t) &&
    (match r.validTo with | none => true | some v => decide (t < v))

/-- The candidate list of `getResolved`: CURRENT mode reads the ACTIVE rows
for the key; HISTORICAL mode passes `undefined` as status, INTENDING to
read rows of any status, but the `= 'ACTIVE'` parameter default fires on
the explicit `undefined` too, so HISTORICAL mode also only reads ACTIVE
rows before filtering them by the validity window. -/
def resolvedCandidates (rows : List Responsibility) (productId countryCode : String)
    (validOnDate : Option Int) : List Responsibility :=
  let responsibilities := getForProduct rows productId (some countryCode) none
    (match validOnDate with | some _ => none | none => some RespStatus.ACTIVE)
  match validOnDate with
  | some d => responsibilities.filter (fun r => windowContains r d)
  | none => responsibilities

/-- Keys of the `byRole` grouping, in order of first occurrence (JS object
keys follow insertion order). -/
def rolesInOrder (l : List Responsibility) : List RoleType :=
  l.foldl (fun acc r => if acc.contains r.role then acc else acc ++ [r.role]) []

/-- One `byRole` group. -/
def roleGroup (l : List Responsibility) (ro : RoleType) : List Responsibility :=
  l.filter (fun r => r.role == ro)

/-- The per-role re-sort `(b.confidence ?? 0) - (a.confidence ?? 0)`:
descending confidence (total preorder; JS engine sort is stable). -/
def confDesc (a b : Responsibility) : Prop := b.confidence ≤ a.confidence

instance : DecidableRel confDesc := fun a b =>
  inferInstanceAs (Decidable (_ ≤ _))

instance : IsTotal Responsibility confDesc := ⟨fun a b => le_total _ _⟩

instance : IsTrans Responsibility confDesc :=
  ⟨fun _ _ _ hab hbc => le_trans hbc hab⟩

end RespService

/-- One entry of `getResolved`'s per-role `resolved` record. -/
structure ResolvedEntry where
  entityId : String
  role : RoleType
  confidence : Int
  sourceId : String
  validFrom : Int
  dataFreshnessDays : Int
  hasConflicts : Bool
deriving DecidableEq, Repr

namespace RespService

/-- Builds the resolved record for one role from the winning candidate:
`dataFreshnessDays = floor((targetDate - best.validFrom) / 86400000 ms)`,
`hasConflicts = items.length > 1`. -/
def mkResolvedEntry (best : Responsibility) (targetDate : Int)
    (items : List Responsibility) : ResolvedEntry :=
  { entityId := best.entityId
    role := best.role
    confidence := best.confidence
    sourceId := best.sourceId
    validFrom := best.validFrom
    dataFreshnessDays := (targetDate - best.validFrom).fdiv 86400000
    hasConflicts := decide (1 < items.length) }

/-- Per-role resolution: sort the group by descending confidence and take
the first element (`sorted[0]`). -/
def resolveRole (items : List Responsibility) (targetDate : Int) :
    Option ResolvedEntry :=
  ((List.insertionSort confDesc items).head?).map
    (fun best => mkResolvedEntry best targetDate items)

end RespService

/-- Return value of `getResolved`. -/
structure ResolvedView where
  productId : String
  countryCode : String
  resolutionMode : String
  resolvedAt : Int
  validOnDate : Int
  responsibilities : List (RoleType × ResolvedEntry)
  conflictCount : Nat
deriving DecidableEq, Repr

namespace RespService

/-- `productResponsibilityService.getResolved`. -/
def getResolved (rows : List Responsibility) (productId countryCode : String)
    (validOnDate : Option Int) (resolvedAt : Int) : ResolvedView :=
  let targetDate := validOnDate.getD resolvedAt
  let cands := resolvedCandidates rows productId countryCode validOnDate
  let roles := rolesInOrder cands
  { productId := productId
    countryCode := countryCode
    resolutionMode := match validOnDate with | some _ => "HISTORICAL" | none => "CURRENT"
    resolvedAt := resolvedAt
    validOnDate := targetDate
    responsibilities := roles.filterMap (fun ro =>
      (resolveRole (roleGroup cands ro) targetDate).map (fun e => (ro, e)))
    conflictCount := (roles.filter (fun ro =>
      decide (1 < (roleGroup cands ro).length))).length }

end RespService

/-- C1 (the code at a failing input): a HISTORICAL-status row of the key
whose `[validFrom, validTo)` window contains `validOnDate` is NOT among
`getResolved`'s HISTORICAL-mode candidates, while the identical row with
ACTIVE status is — the explicitly passed `undefined` status triggers the
`= 'ACTIVE'` parameter default, so HISTORICAL mode reads only ACTIVE rows,
although the window filter would admit the row. -/
theorem getResolved_historical_status_bug :
    RespService.resolvedCandidates
        [⟨0, "p", "PL", "A", .MANUFACTURER, "s", 60, 0, some 5000, .HISTORICAL⟩]
        "p" "PL" (some 1000) = []
    ∧ RespService.windowContains
        (⟨0, "p", "PL", "A", .MANUFACTURER, "s", 60, 0, some 5000,
          .HISTORICAL⟩ : Responsibility) 1000 = true
    ∧ RespService.resolvedCandidates
        [⟨0, "p", "PL", "A", .MANUFACTURER, "s", 60, 0, some 5000, .ACTIVE⟩]
        "p" "PL" (some 1000)
      = [⟨0, "p", "PL", "A", .MANUFACTURER, "s", 60, 0, some 5000, .ACTIVE⟩] := by
  decide

/-- C6 helper: a singleton-list equality from `a ∈ l` and `l.length ≤ 1`. -/
theorem eq_singleton_of_mem_of_len_le_one {α : Type} {l : List α} {a : α}
    (ha : a ∈ l) (hl : l.length ≤ 1) : l = [a] := by
  match l, ha with
  | [x], ha =>
      rw [List.mem_singleton.mp ha]
  | x :: y :: t, _ =>
      simp at hl

/-- C7: every entry of `getResolved.responsibilities` is built from a
candidate of its role group whose confidence is maximal in the group; its
`hasConflicts` flag holds iff the group has more than one candidate; its
`dataFreshnessDays` is the floor of (targetDate − winner.validFrom) in days,
with targetDate = validOnDate when given and the resolution time otherwise;
and `conflictCount` counts the roles with more than one candidate. -/
theorem getResolved_confidence_ranking (rows : List Responsibility)
    (pid cc : String) (v : Option Int) (ra : Int) :
    (∀ ro e, (ro, e) ∈ (RespService.getResolved rows pid cc v ra).responsibilities →
      ∃ best ∈ RespService.roleGroup
          (RespService.resolvedCandidates rows pid cc v) ro,
        e = RespService.mkResolvedEntry best (v.getD ra)
              (RespService.roleGroup (RespService.resolvedCandidates rows pid cc v) ro)
        ∧ (∀ x ∈ RespService.roleGroup
              (RespService.resolvedCandidates rows pid cc v) ro,
            x.confidence ≤ best.confidence)
        ∧ (e.hasConflicts = true ↔
            1 < (RespService.roleGroup
              (RespService.resolvedCandidates rows pid cc v) ro).length)
        ∧ e.dataFreshnessDays
            = ((v.getD ra) - best.validFrom).fdiv 86400000)
    ∧ (RespService.getResolved rows pid cc v ra).conflictCount
        = (RespService.rolesInOrder
            (RespService.resolvedCandidates rows pid cc v)).countP
            (fun ro => decide (1 < (RespService.roleGroup
              (RespService.resolvedCandidates rows pid cc v) ro).length)) := by
  constructor
  · intro ro e hmem
    unfold RespService.getResolved at hmem
    dsimp only at hmem
    rcases List.mem_filterMap.mp hmem with ⟨ro1, _, hf⟩
    rcases Option.map_eq_some'.mp hf with ⟨e1, hres, heq⟩
    injection heq with h1 h2
    subst h2
    rw [← h1]
    unfold RespService.resolveRole at hres
    rcases Option.map_eq_some'.mp hres with ⟨best, hhead, rfl⟩
    cases hs : List.insertionSort RespService.confDesc
        (RespService.roleGroup (RespService.resolvedCandidates rows pid cc v) ro1) with
    | nil => rw [hs] at hhead; cases hhead
    | cons b t =>
        rw [hs] at hhead
        injection hhead with hb
        subst hb
        have hperm := List.perm_insertionSort RespService.confDesc
          (RespService.roleGroup (RespService.resolvedCandidates rows pid cc v) ro1)
        rw [hs] at hperm
        have hsorted := List.sorted_insertionSort RespService.confDesc
          (RespService.roleGroup (RespService.resolvedCandidates rows pid cc v) ro1)
        rw [hs, List.sorted_cons] at hsorted
        have hbestmem : b ∈ RespService.roleGroup
            (RespService.resolvedCandidates rows pid cc v) ro1 :=
          hperm.mem_iff.mp (List.mem_cons_self _ _)
        refine ⟨b, hbestmem, rfl, ?_, ?_, rfl⟩
        · intro x hx
          rcases List.mem_cons.mp (hperm.mem_iff.mpr hx) with rfl | hx2
          · exact le_refl _
          · exact hsorted.1 x hx2
        · unfold RespService.mkResolvedEntry
          simp
  · unfold RespService.getResolved
    dsimp only
    rw [List.countP_eq_length_filter]

/-- C7 witness: two MANUFACTURER candidates (confidence 60 and 90); the
resolved entry is the confidence-90 one, `hasConflicts` holds, freshness is
3 days. -/
theorem getResolved_confidence_ranking_witness :
    ∃ best ∈ RespService.roleGroup
        (RespService.resolvedCandidates
          [⟨0, "p", "PL", "A", .MANUFACTURER, "s", 60, 0, none, .ACTIVE⟩,
           ⟨1, "p", "PL", "B", .MANUFACTURER, "s", 90, 0, none, .ACTIVE⟩]
          "p" "PL" none) RoleType.MANUFACTURER,
      (⟨"B", .MANUFACTURER, 90, "s", 0, 3, true⟩ : ResolvedEntry)
          = RespService.mkResolvedEntry best ((none : Option Int).getD 259200000)
              (RespService.roleGroup
                (RespService.resolvedCandidates
                  [⟨0, "p", "PL", "A", .MANUFACTURER, "s", 60, 0, none, .ACTIVE⟩,
                   ⟨1, "p", "PL", "B", .MANUFACTURER, "s", 90, 0, none, .ACTIVE⟩]
                  "p" "PL" none) RoleType.MANUFACTURER)
        ∧ (∀ x ∈ RespService.roleGroup
              (RespService.resolvedCandidates
                [⟨0, "p", "PL", "A", .MANUFACTURER, "s", 60, 0, none, .ACTIVE⟩,
                 ⟨1, "p", "PL", "B", .MANUFACTURER, "s", 90, 0, none, .ACTIVE⟩]
                "p" "PL" none) RoleType.MANUFACTURER,
            x.confidence ≤ best.confidence)
        ∧ ((⟨"B", .MANUFACTURER, 90, "s", 0, 3, true⟩ : ResolvedEntry).hasConflicts
              = true ↔
            1 < (RespService.roleGroup
              (RespService.resolvedCandidates
                [⟨0, "p", "PL", "A", .MANUFACTURER, "s", 60, 0, none, .ACTIVE⟩,
                 ⟨1, "p", "PL", "B", .MANUFACTURER, "s", 90, 0, none, .ACTIVE⟩]
                "p" "PL" none) RoleType.MANUFACTURER).length)
        ∧ (⟨"B", .MANUFACTURER, 90, "s", 0, 3, true⟩ : ResolvedEntry).dataFreshnessDays
            = (((none : Option Int).getD 259200000) - best.validFrom).fdiv 86400000 :=
  (getResolved_confidence_ranking
    [⟨0, "p", "PL", "A", .MANUFACTURER, "s", 60, 0, none, .ACTIVE⟩,
     ⟨1, "p", "PL", "B", .MANUFACTURER, "s", 90, 0, none, .ACTIVE⟩]
    "p" "PL" none 259200000).1 RoleType.MANUFACTURER
    ⟨"B", .MANUFACTURER, 90, "s", 0, 3, true⟩ (by decide)

/-- C6 helper: effect of one successful `assign` on the ACTIVE rows of its
key — exactly one afterwards (the new row), and the referenced tables are
untouched. -/
theorem assign_step (st : RespState) (now : Int) (d : AssignInput)
    (hp : st.products.contains d.productId = true)
    (he : st.entities.contains d.entityId = true)
    (hlen : (RespService.activeFor st.rows d.productId
        (jsToUpper d.countryCode) d.role).length ≤ 1) :
    (RespService.activeFor (RespService.assign st now d).2.rows d.productId
        (jsToUpper d.countryCode) d.role).length = 1
    ∧ (RespService.assign st now d).2.products = st.products
    ∧ (RespService.assign st now d).2.entities = st.entities := by
  unfold RespService.assign
  rw [hp, he]
  rw [if_neg (by decide), if_neg (by decide)]
  dsimp only
  cases hfind : st.rows.find?
      (RespService.activeKeyPred d.productId (jsToUpper d.countryCode) d.role) with
  | none =>
      simp only [hfind]
      refine ⟨?_, by simp, by simp⟩
      unfold RespService.activeFor
      rw [List.filter_append]
      have h1 : st.rows.filter (RespService.activeKeyPred d.productId
          (jsToUpper d.countryCode) d.role) = [] := by
        rw [List.filter_eq_nil]
        exact fun x hx => List.find?_eq_none.mp hfind x hx
      rw [h1]
      simp [RespService.activeKeyPred]
  | some ex =>
      simp only [hfind]
      refine ⟨?_, by simp, by simp⟩
      have hpred := List.find?_some hfind
      have hexmem := List.mem_of_find?_eq_some hfind
      have hsingle : RespService.activeFor st.rows d.productId
          (jsToUpper d.countryCode) d.role = [ex] :=
        eq_singleton_of_mem_of_len_le_one
          (List.mem_filter.mpr ⟨hexmem, hpred⟩) hlen
      unfold RespService.activeFor
      rw [List.filter_append]
      have h1 : (st.rows.map (fun r =>
          if r.id == ex.id then
            { r with status := RespStatus.HISTORICAL, validTo := some now }
          else r)).filter (RespService.activeKeyPred d.productId
            (jsToUpper d.countryCode) d.role) = [] := by
        rw [List.filter_eq_nil]
        intro y hy
        rcases List.mem_map.mp hy with ⟨x, hx, rfl⟩
        by_cases hxid : (x.id == ex.id) = true
        · rw [if_pos hxid]
          simp [RespService.activeKeyPred]
        · rw [if_neg hxid]
          intro hpx
          have : x ∈ RespService.activeFor st.rows d.productId
              (jsToUpper d.countryCode) d.role :=
            List.mem_filter.mpr ⟨hx, hpx⟩
          rw [hsingle, List.mem_singleton] at this
          subst this
          exact hxid (by simp)
      rw [h1]
      simp [RespService.activeKeyPred]

/-- C6 helper: the whole state after a sequence of `assign` calls. -/
def runAssigns (st : RespState) (inputs : List (Int × AssignInput)) : RespState :=
  inputs.foldl (fun s p => (RespService.assign s p.1 p.2).2) st

/-- C6 helper: a non-empty sequence of successful same-key assigns leaves
exactly one ACTIVE row for the key. -/
theorem runAssigns_exactly_one (pid cc : String) (ro : RoleType) :
    ∀ (inputs : List (Int × AssignInput)) (st : RespState),
      (∀ p ∈ inputs, p.2.productId = pid ∧ jsToUpper p.2.countryCode = cc
        ∧ p.2.role = ro) →
      (∀ p ∈ inputs, st.products.contains p.2.productId = true
        ∧ st.entities.contains p.2.entityId = true) →
      (RespService.activeFor st.rows pid cc ro).length ≤ 1 →
      inputs ≠ [] →
      (RespService.activeFor (runAssigns st inputs).rows pid cc ro).length = 1 := by
  intro inputs
  induction inputs with
  | nil => intro st _ _ _ hne; exact absurd rfl hne
  | cons p ps ih =>
      intro st hkeys hok hlen _
      have hk := hkeys p (List.mem_cons_self _ _)
      have ho := hok p (List.mem_cons_self _ _)
      have hlen' : (RespService.activeFor st.rows p.2.productId
          (jsToUpper p.2.countryCode) p.2.role).length ≤ 1 := by
        rw [hk.1, hk.2.1, hk.2.2]; exact hlen
      have hstep := assign_step st p.1 p.2 ho.1 ho.2 hlen'
      rw [hk.1, hk.2.1, hk.2.2] at hstep
      have hfold : runAssigns st (p :: ps)
          = runAssigns (RespService.assign st p.1 p.2).2 ps := rfl
      cases ps with
      | nil =>
          rw [hfold]
          exact hstep.1
      | cons q qs =>
          rw [hfold]
          refine ih (RespService.assign st p.1 p.2).2
            (fun r hr => hkeys r (List.mem_cons_of_mem _ hr))
            (fun r hr => by
              rw [hstep.2.1, hstep.2.2]
              exact hok r (List.mem_cons_of_mem _ hr))
            (le_of_eq hstep.1) (by simp)

/-- C6: after any non-empty sequence of successful `assign` calls for the
same (productId, countryCode, role) key — starting from at most one ACTIVE
row — exactly one ACTIVE responsibility exists for that key; and any single
`assign` that finds a prior ACTIVE row rewrites it to HISTORICAL with
`validTo = now` and appends the new ACTIVE row in the same call. -/
theorem assign_at_most_one_active
    (st₀ : RespState) (pid cc : String) (ro : RoleType)
    (inputs : List (Int × AssignInput))
    (hne : inputs ≠ [])
    (hkeys : ∀ p ∈ inputs, p.2.productId = pid ∧ jsToUpper p.2.countryCode = cc
      ∧ p.2.role = ro)
    (hok : ∀ p ∈ inputs, st₀.products.contains p.2.productId = true
      ∧ st₀.entities.contains p.2.entityId = true)
    (hinit : (RespService.activeFor st₀.rows pid cc ro).length ≤ 1) :
    (RespService.activeFor (runAssigns st₀ inputs).rows pid cc ro).length = 1
    ∧ (∀ (st : RespState) (now : Int) (d : AssignInput) (ex : Responsibility),
        st.products.contains d.productId = true →
        st.entities.contains d.entityId = true →
        st.rows.find? (RespService.activeKeyPred d.productId
          (jsToUpper d.countryCode) d.role) = some ex →
        ∃ nr, (RespService.assign st now d).1 = .ok nr
          ∧ nr.status = RespStatus.ACTIVE
          ∧ (RespService.assign st now d).2.rows
              = st.rows.map (fun r =>
                  if r.id == ex.id then
                    { r with status := RespStatus.HISTORICAL, validTo := some now }
                  else r) ++ [nr]) := by
  constructor
  · exact runAssigns_exactly_one pid cc ro inputs st₀ hkeys hok hinit hne
  · intro st now d ex hp he hfind
    unfold RespService.assign
    rw [hp, he]
    rw [if_neg (by decide), if_neg (by decide)]
    dsimp only
    rw [hfind]
    exact ⟨_, rfl, rfl, rfl⟩

/-- C6 witness: two successive assigns for key ("p","PL",MANUFACTURER) from
an empty responsibility table leave exactly one ACTIVE row. -/
theorem assign_at_most_one_active_witness :
    (RespService.activeFor (runAssigns
        { products := ["p"], entities := ["A", "B"], rows := [], nextRespId := 0 }
        [(1000, ⟨"p", "pl", "A", .MANUFACTURER, "s", none, none, none⟩),
         (2000, ⟨"p", "PL", "B", .MANUFACTURER, "s", some 90, none, none⟩)]).rows
      "p" "PL" RoleType.MANUFACTURER).length = 1
    ∧ (∀ (st : RespState) (now : Int) (d : AssignInput) (ex : Responsibility),
        st.products.contains d.productId = true →
        st.entities.contains d.entityId = true →
        st.rows.find? (RespService.activeKeyPred d.productId
          (jsToUpper d.countryCode) d.role) = some ex →
        ∃ nr, (RespService.assign st now d).1 = .ok nr
          ∧ nr.status = RespStatus.ACTIVE
          ∧ (RespService.assign st now d).2.rows
              = st.rows.map (fun r =>
                  if r.id == ex.id then
                    { r with status := RespStatus.HISTORICAL, validTo := some now }
                  else r) ++ [nr]) :=
  assign_at_most_one_active
    { products := ["p"], entities := ["A", "B"], rows := [], nextRespId := 0 }
    "p" "PL" RoleType.MANUFACTURER
    [(1000, ⟨"p", "pl", "A", .MANUFACTURER, "s", none, none, none⟩),
     (2000, ⟨"p", "PL", "B", .MANUFACTURER, "s", some 90, none, none⟩)]
    (by decide) (by decide) (by decide) (by decide)

/-- C10: when the optional `confidence` argument is omitted, `submit` stores
the claim and `assign` stores the responsibility with confidence exactly 50
(`data.confidence ?? 50`). -/
theorem default_confidence_50 (cst : ClaimState) (d : SubmitClaimInput)
    (rst : RespState) (now : Int) (a : AssignInput) (s : Source)
    (hs : cst.sources.find? (fun x => x.id == d.sourceId) = some s)
    (hdc : d.confidence = none)
    (hp : rst.products.contains a.productId = true)
    (he : rst.entities.contains a.entityId = true)
    (hac : a.confidence = none) :
    (∃ c, (ClaimService.submit cst d).1 = .ok c ∧ c.confidence = 50
       ∧ c ∈ (ClaimService.submit cst d).2.claims)
    ∧ (∃ r, (RespService.assign rst now a).1 = .ok r ∧ r.confidence = 50
       ∧ r ∈ (RespService.assign rst now a).2.rows) := by
  constructor
  · unfold ClaimService.submit
    rw [hs]
    exact ⟨_, rfl, by rw [hdc]; rfl, by simp⟩
  · unfold RespService.assign
    rw [hp, he]
    rw [if_neg (by decide), if_neg (by decide)]
    dsimp only
    cases hfind : rst.rows.find?
        (RespService.activeKeyPred a.productId (jsToUpper a.countryCode) a.role) with
    | none =>
        simp only [hfind]
        exact ⟨_, rfl, by rw [hac]; rfl, by simp⟩
    | some ex =>
        simp only [hfind]
        exact ⟨_, rfl, by rw [hac]; rfl, by simp⟩

/-- C10 witness: a concrete submit and a concrete assign, both without a
confidence argument, store confidence 50. -/
theorem default_confidence_50_witness :
    (∃ c, (ClaimService.submit
        { sources := [⟨7, .COMMUNITY, none, none, none, none, none⟩],
          claims := [], nextClaimId := 0 }
        ⟨.ENTITY, "e1", "address", "v", 7, none⟩).1 = .ok c
      ∧ c.confidence = 50
      ∧ c ∈ (ClaimService.submit
        { sources := [⟨7, .COMMUNITY, none, none, none, none, none⟩],
          claims := [], nextClaimId := 0 }
        ⟨.ENTITY, "e1", "address", "v", 7, none⟩).2.claims)
    ∧ (∃ r, (RespService.assign
        { products := ["p"], entities := ["A"], rows := [], nextRespId := 0 }
        1000 ⟨"p", "pl", "A", .MANUFACTURER, "s", none, none, none⟩).1 = .ok r
      ∧ r.confidence = 50
      ∧ r ∈ (RespService.assign
        { products := ["p"], entities := ["A"], rows := [], nextRespId := 0 }
        1000 ⟨"p", "pl", "A", .MANUFACTURER, "s", none, none, none⟩).2.rows) :=
  default_confidence_50
    { sources := [⟨7, .COMMUNITY, none, none, none, none, none⟩],
      claims := [], nextClaimId := 0 }
    ⟨.ENTITY, "e1", "address", "v", 7, none⟩
    { products := ["p"], entities := ["A"], rows := [], nextRespId := 0 }
    1000 ⟨"p", "pl", "A", .MANUFACTURER, "s", none, none, none⟩
    ⟨7, .COMMUNITY, none, none, none, none, none⟩
    (by decide) rfl (by decide) (by decide) rfl

/-! ## Identifier dedup index (`services/entityIdentifierService.ts`) -/

/-- Normalized payload of an `Entity` row (the `normalized…` columns). -/
structure EntityData where
  name : String
  address : Option String
  city : Option String
  country : String
  vatId : Option String
  phone : Option String
  website : Option String
deriving DecidableEq, Repr

/-- An `Entity` row. -/
structure EntityRow where
  id : Nat
  data : EntityData
  isActive : Bool
  currentVersionId : Option Nat
deriving DecidableEq, Repr

/-- `IdentifierType` type alias of `entityIdentifierService.ts`. -/
inductive IdentifierType where
  | VAT_EU | EORI | LEI | DUNS | KRS | NIP | REGON | GLN | COMPANY_REGISTER
deriving DecidableEq, Repr

/-- Enum name as printed by JS template interpolation. -/
def IdentifierType.str : IdentifierType → String
  | .VAT_EU => "VAT_EU"
  | .EORI => "EORI"
  | .LEI => "LEI"
  | .DUNS => "DUNS"
  | .KRS => "KRS"
  | .NIP => "NIP"
  | .REGON => "REGON"
  | .GLN => "GLN"
  | .COMPANY_REGISTER => "COMPANY_REGISTER"

/-- An `EntityIdentifier` row; `(type, value)` is the global dedup key. -/
structure EntityIdentifier where
  id : Nat
  entityId : Nat
  type : IdentifierType
  value : String
  countryCode : Option String
  sourceId : Nat
  isPrimary : Bool
deriving DecidableEq, Repr

/-- State of the identifier service: the `Entity` table it validates
against and the `EntityIdentifier` table. -/
structure IdentState where
  entities : List EntityRow
  identifiers : List EntityIdentifier
  nextIdentifierId : Nat
deriving DecidableEq, Repr

/-- The `data` argument of `addIdentifier`. -/
structure AddIdentifierInput where
  type : IdentifierType
  value : String
  countryCode : Option String := none
  sourceId : Nat
  isPrimary : Option Bool := none
deriving DecidableEq, Repr

/-- Name of the entity owning a row (`existing.entity.normalizedName`; the
foreign key always resolves in a consistent store, `""` is a model default
for a dangling reference). -/
def entityNameOf (entities : List EntityRow) (eid : Nat) : String :=
  ((entities.find? (fun e => e.id == eid)).map (fun e => e.data.name)).getD ""

namespace IdentifierService

/-- `entityIdentifierService.addIdentifier`: validates the entity, looks up
the unique `(type, normalized value)` row; same-entity hit updates in place,
different-entity hit raises a Validation error naming the owner; otherwise
(create path) it first unsets other primary flags of the same type when
`isPrimary` is set, then inserts the new row. -/
def addIdentifier (st : IdentState) (entityId : Nat) (d : AddIdentifierInput) :
    (Except Err EntityIdentifier) × IdentState :=
  match st.entities.find? (fun e => e.id == entityId) with
  | none => (.error (.notFound "Entity not found"), st)
  | some _ =>
      let normalizedValue := jsTrim (jsToUpper d.value)
      match st.identifiers.find? (fun i =>
          i.type == d.type && i.value == normalizedValue) with
      | some existing =>
          if existing.entityId == entityId then
            let updated := { existing with
              countryCode := d.countryCode.map jsToUpper
              sourceId := d.sourceId
              isPrimary := d.isPrimary.getD existing.isPrimary }
            (.ok updated,
              { st with identifiers := st.identifiers.map (fun i =>
                  if i.id == existing.id then updated else i) })
          else
            (.error (.validation
              ("Identifier " ++ d.type.str ++ ":" ++ normalizedValue
                ++ " already assigned to entity \""
                ++ entityNameOf st.entities existing.entityId
                ++ "\" (" ++ toString existing.entityId ++ ")")), st)
      | none =>
          let demoted := if d.isPrimary.getD false then
              st.identifiers.map (fun i =>
                if i.entityId == entityId && i.type == d.type && i.isPrimary then
                  { i with isPrimary := false }
                else i)
            else st.identifiers
          let ident : EntityIdentifier :=
            { id := st.nextIdentifierId
              entityId := entityId
              type := d.type
              value := normalizedValue
              countryCode := d.countryCode.map jsToUpper
              sourceId := d.sourceId
              isPrimary := d.isPrimary.getD false }
          (.ok ident,
            { st with identifiers := demoted ++ [ident],
                      nextIdentifierId := st.nextIdentifierId + 1 })

end IdentifierService

/-- C8: when the `(type, normalized value)` pair already belongs to a
different entity, `addIdentifier` fails with a Validation error whose
message names the conflicting entity (its normalizedName and id), and the
store is left unchanged. -/
theorem addIdentifier_conflict_rejected (st : IdentState) (entityId : Nat)
    (d : AddIdentifierInput) (e : EntityRow) (existing : EntityIdentifier)
    (hent : st.entities.find? (fun x => x.id == entityId) = some e)
    (hfind : st.identifiers.find? (fun i =>
        i.type == d.type && i.value == jsTrim (jsToUpper d.value)) = some existing)
    (hdiff : existing.entityId ≠ entityId) :
    (IdentifierService.addIdentifier st entityId d).1
        = .error (.validation
            ("Identifier " ++ d.type.str ++ ":" ++ jsTrim (jsToUpper d.value)
              ++ " already assigned to entity \""
              ++ entityNameOf st.entities existing.entityId
              ++ "\" (" ++ toString existing.entityId ++ ")"))
    ∧ (IdentifierService.addIdentifier st entityId d).2 = st := by
  unfold IdentifierService.addIdentifier
  rw [hent]
  dsimp only
  rw [hfind]
  dsimp only
  rw [if_neg (by simp [hdiff])]
  exact ⟨rfl, rfl⟩

/-- C8 witness: `VAT_EU:PL1234567890` is owned by entity 0 ("ACME");
adding it (lower-case, padded) to entity 1 fails and changes nothing. -/
theorem addIdentifier_conflict_rejected_witness :
    (IdentifierService.addIdentifier
        { entities := [⟨0, ⟨"ACME", none, none, "PL", none, none, none⟩, true, none⟩,
                       ⟨1, ⟨"OTHER", none, none, "DE", none, none, none⟩, true, none⟩],
          identifiers := [⟨0, 0, .VAT_EU, "PL1234567890", none, 1, true⟩],
          nextIdentifierId := 1 }
        1 ⟨.VAT_EU, " pl1234567890", none, 2, none⟩).1
      = .error (.validation
          ("Identifier " ++ IdentifierType.str .VAT_EU ++ ":"
            ++ jsTrim (jsToUpper " pl1234567890")
            ++ " already assigned to entity \""
            ++ entityNameOf
                [⟨0, ⟨"ACME", none, none, "PL", none, none, none⟩, true, none⟩,
                 ⟨1, ⟨"OTHER", none, none, "DE", none, none, none⟩, true, none⟩] 0
            ++ "\" (" ++ toString (0 : Nat) ++ ")"))
    ∧ (IdentifierService.addIdentifier
        { entities := [⟨0, ⟨"ACME", none, none, "PL", none, none, none⟩, true, none⟩,
                       ⟨1, ⟨"OTHER", none, none, "DE", none, none, none⟩, true, none⟩],
          identifiers := [⟨0, 0, .VAT_EU, "PL1234567890", none, 1, true⟩],
          nextIdentifierId := 1 }
        1 ⟨.VAT_EU, " pl1234567890", none, 2, none⟩).2
      = { entities := [⟨0, ⟨"ACME", none, none, "PL", none, none, none⟩, true, none⟩,
                       ⟨1, ⟨"OTHER", none, none, "DE", none, none, none⟩, true, none⟩],
          identifiers := [⟨0, 0, .VAT_EU, "PL1234567890", none, 1, true⟩],
          nextIdentifierId := 1 } :=
  addIdentifier_conflict_rejected
    { entities := [⟨0, ⟨"ACME", none, none, "PL", none, none, none⟩, true, none⟩,
                   ⟨1, ⟨"OTHER", none, none, "DE", none, none, none⟩, true, none⟩],
      identifiers := [⟨0, 0, .VAT_EU, "PL1234567890", none, 1, true⟩],
      nextIdentifierId := 1 }
    1 ⟨.VAT_EU, " pl1234567890", none, 2, none⟩
    ⟨1, ⟨"OTHER", none, none, "DE", none, none, none⟩, true, none⟩
    ⟨0, 0, .VAT_EU, "PL1234567890", none, 1, true⟩
    (by decide) (by decide) (by decide)

/-- C4 counterexample: add `(VAT_EU,"A")` as primary, then `(VAT_EU,"B")` as
primary (demotes A), then `(VAT_EU,"A")` as primary again — the last call
takes the in-place update path, which does not demote B, leaving TWO primary
VAT_EU identifiers on entity 0. -/
theorem addIdentifier_two_primaries_cex :
    ((IdentifierService.addIdentifier
        (IdentifierService.addIdentifier
          (IdentifierService.addIdentifier
            { entities := [⟨0, ⟨"E", none, none, "PL", none, none, none⟩, true, none⟩],
              identifiers := [], nextIdentifierId := 0 }
            0 ⟨.VAT_EU, "A", none, 1, some true⟩).2
          0 ⟨.VAT_EU, "B", none, 1, some true⟩).2
        0 ⟨.VAT_EU, "A", none, 1, some true⟩).2.identifiers.filter
      (fun i => i.entityId == 0 && i.type == IdentifierType.VAT_EU
        && i.isPrimary)).length = 2 := by
  decide

/-- C4 (amended): the demote-then-set discipline only covers the create
path — when no `(type, normalized value)` row exists and `isPrimary` is
true, every other primary of that type is unset and the new row is the only
primary of its type on the entity.  On the in-place update path (row exists
on the same entity) every other identifier row is left unchanged, so a
second primary of the same type can remain. -/
theorem addIdentifier_primary_amended (st : IdentState) (eid : Nat)
    (d : AddIdentifierInput) (e : EntityRow)
    (hent : st.entities.find? (fun x => x.id == eid) = some e) :
    (st.identifiers.find? (fun i =>
        i.type == d.type && i.value == jsTrim (jsToUpper d.value)) = none →
      d.isPrimary = some true →
      ((IdentifierService.addIdentifier st eid d).2.identifiers.filter
        (fun i => i.entityId == eid && i.type == d.type && i.isPrimary)).map
          (fun i => i.id) = [st.nextIdentifierId])
    ∧ (∀ existing, st.identifiers.find? (fun i =>
          i.type == d.type && i.value == jsTrim (jsToUpper d.value)) = some existing →
        existing.entityId = eid →
        ∀ i ∈ st.identifiers, i.id ≠ existing.id →
          i ∈ (IdentifierService.addIdentifier st eid d).2.identifiers) := by
  constructor
  · intro hnone hprim
    unfold IdentifierService.addIdentifier
    rw [hent]
    dsimp only
    rw [hnone]
    dsimp only
    rw [hprim]
    have hgd : ((some true : Option Bool).getD false) = true := rfl
    rw [if_pos hgd]
    rw [List.filter_append]
    have h1 : (st.identifiers.map (fun i =>
        if i.entityId == eid && i.type == d.type && i.isPrimary then
          { i with isPrimary := false }
        else i)).filter
          (fun i => i.entityId == eid && i.type == d.type && i.isPrimary) = [] := by
      rw [List.filter_eq_nil]
      intro y hy
      rcases List.mem_map.mp hy with ⟨x, _, rfl⟩
      by_cases hguard : (x.entityId == eid && x.type == d.type && x.isPrimary) = true
      · rw [if_pos hguard]
        simp
      · rw [if_neg hguard]
        exact hguard
    rw [h1]
    simp
  · intro existing hfindex hsame i hi hne
    unfold IdentifierService.addIdentifier
    rw [hent]
    dsimp only
    rw [hfindex]
    dsimp only
    rw [if_pos (by simp [hsame])]
    exact List.mem_map.mpr ⟨i, hi, by rw [if_neg (by simp [hne])]⟩

/-- C4 witness: on the create path, adding `(VAT_EU,"B")` as primary next to
an existing primary `(VAT_EU,"A")` leaves exactly the new row primary; on
the update path, re-adding `(VAT_EU,"A")` leaves the other row untouched. -/
theorem addIdentifier_primary_amended_witness :
    ((IdentifierService.addIdentifier
        { entities := [⟨0, ⟨"E", none, none, "PL", none, none, none⟩, true, none⟩],
          identifiers := [⟨0, 0, .VAT_EU, "A", none, 1, true⟩],
          nextIdentifierId := 1 }
        0 ⟨.VAT_EU, "B", none, 1, some true⟩).2.identifiers.filter
        (fun i => i.entityId == 0 && i.type == IdentifierType.VAT_EU
          && i.isPrimary)).map (fun i => i.id) = [1]
    ∧ (⟨1, 0, .VAT_EU, "B", none, 1, true⟩ : EntityIdentifier)
        ∈ (IdentifierService.addIdentifier
            { entities := [⟨0, ⟨"E", none, none, "PL", none, none, none⟩, true, none⟩],
              identifiers := [⟨0, 0, .VAT_EU, "A", none, 1, false⟩,
                              ⟨1, 0, .VAT_EU, "B", none, 1, true⟩],
              nextIdentifierId := 2 }
            0 ⟨.VAT_EU, " a", none, 2, some true⟩).2.identifiers :=
  ⟨(addIdentifier_primary_amended
      { entities := [⟨0, ⟨"E", none, none, "PL", none, none, none⟩, true, none⟩],
        identifiers := [⟨0, 0, .VAT_EU, "A", none, 1, true⟩],
        nextIdentifierId := 1 }
      0 ⟨.VAT_EU, "B", none, 1, some true⟩
      ⟨0, ⟨"E", none, none, "PL", none, none, none⟩, true, none⟩
      (by decide)).1 (by decide) rfl,
   (addIdentifier_primary_amended
      { entities := [⟨0, ⟨"E", none, none, "PL", none, none, none⟩, true, none⟩],
        identifiers := [⟨0, 0, .VAT_EU, "A", none, 1, false⟩,
                        ⟨1, 0, .VAT_EU, "B", none, 1, true⟩],
        nextIdentifierId := 2 }
      0 ⟨.VAT_EU, " a", none, 2, some true⟩
      ⟨0, ⟨"E", none, none, "PL", none, none, none⟩, true, none⟩
      (by decide)).2 ⟨0, 0, .VAT_EU, "A", none, 1, false⟩ (by decide) rfl
      ⟨1, 0, .VAT_EU, "B", none, 1, true⟩ (by decide) (by decide)⟩

/-! ## Version store (`services/entityService.ts`) -/

/-- An `EntityVersion` row.  `originalData` (the raw input snapshot) is
carried implicitly by `normalizedData` here: no verified property reads it. -/
structure EntityVersion where
  id : Nat
  entityId : Nat
  sourceId : Nat
  versionNumber : Nat
  normalizedData : EntityData
  changeNote : Option String
deriving DecidableEq, Repr

/-- State of the entity service: the `Source` table (used through
`sourceService.findOrCreate`), the `Entity` and `EntityVersion` tables. -/
structure EntityState where
  sourceState : SourceState
  entities : List EntityRow
  versions : List EntityVersion
  nextEntityId : Nat
  nextVersionId : Nat
deriving DecidableEq, Repr

/-- `CreateEntityInput` (scalar fields already normalized; the optional
`role` only feeds the unmodelled `EntityRole` table). -/
structure CreateEntityInput where
  name : String
  country : String
  address : Option String := none
  city : Option String := none
  vatId : Option String := none
  phone : Option String := none
  website : Option String := none
  source : CreateSourceInput
deriving DecidableEq, Repr

/-- `UpdateEntityInput` (all fields optional; absent = `undefined`). -/
structure UpdateEntityInput where
  name : Option String := none
  country : Option String := none
  address : Option String := none
  city : Option String := none
  vatId : Option String := none
  phone : Option String := none
  website : Option String := none
  isActive : Option Bool := none
  changeNote : Option String := none
  source : CreateSourceInput
deriving DecidableEq, Repr

/-- `data.x ? normalize(data.x) : null` applied over `current`: a provided
non-empty value replaces, a provided empty string clears to null, absent
keeps the current value (used for address/vatId/phone/website rows). -/
def applyClearable (patchField : Option String) (cur : Option String) :
    Option String :=
  match patchField with
  | none => cur
  | some s => if s = "" then none else some s

/-- The version snapshot merge `updates.x ?? current.x`: a cleared (null)
update falls back to the current value, because `??` treats null like
undefined. -/
def snapClearable (patchField : Option String) (cur : Option String) :
    Option String :=
  match patchField with
  | none => cur
  | some s => if s = "" then cur else some s

namespace EntityService

/-- `EntityService.create`: resolves the source, creates the entity row,
creates version 1 and repoints `currentVersionId` to it, in one
transaction. -/
def create (st : EntityState) (d : CreateEntityInput) : EntityRow × EntityState :=
  let fc := SourceService.findOrCreate st.sourceState d.source
  let nd : EntityData :=
    { name := d.name
      address := applyClearable d.address none
      city := d.city
      country := d.country
      vatId := applyClearable d.vatId none
      phone := applyClearable d.phone none
      website := applyClearable d.website none }
  let newEntity : EntityRow :=
    { id := st.nextEntityId, data := nd, isActive := true, currentVersionId := none }
  let version : EntityVersion :=
    { id := st.nextVersionId
      entityId := newEntity.id
      sourceId := fc.1.id
      versionNumber := 1
      normalizedData := nd
      changeNote := none }
  let updatedEntity : EntityRow := { newEntity with currentVersionId := some version.id }
  (updatedEntity,
    { sourceState := fc.2
      entities := (st.entities ++ [newEntity]).map (fun e =>
        if e.id == newEntity.id then updatedEntity else e)
      versions := st.versions ++ [version]
      nextEntityId := st.nextEntityId + 1
      nextVersionId := st.nextVersionId + 1 })

/-- `EntityService.update`: reads the current entity (NotFound if missing),
resolves the source, computes `nextVersionNumber = max(versionNumber) + 1`
over the entity's versions, inserts the new version and repoints
`currentVersionId` — the version computation and both writes in one
(retried) transaction. -/
def update (st : EntityState) (id : Nat) (d : UpdateEntityInput) :
    (Except Err EntityRow) × EntityState :=
  match st.entities.find? (fun e => e.id == id) with
  | none => (.error (.notFound "Entity"), st)
  | some current =>
      let fc := SourceService.findOrCreate st.sourceState d.source
      let newData : EntityData :=
        { name := d.name.getD current.data.name
          country := d.country.getD current.data.country
          address := applyClearable d.address current.data.address
          city := match d.city with | none => current.data.city | some s => some s
          vatId := applyClearable d.vatId current.data.vatId
          phone := applyClearable d.phone current.data.phone
          website := applyClearable d.website current.data.website }
      let snapData : EntityData :=
        { name := d.name.getD current.data.name
          country := d.country.getD current.data.country
          address := snapClearable d.address current.data.address
          city := match d.city with | none => current.data.city | some s => some s
          vatId := snapClearable d.vatId current.data.vatId
          phone := snapClearable d.phone current.data.phone
          website := snapClearable d.website current.data.website }
      let maxV := ((st.versions.filter (fun v => v.entityId == id)).map
        (fun v => v.versionNumber)).foldr max 0
      let newVersion : EntityVersion :=
        { id := st.nextVersionId
          entityId := id
          sourceId := fc.1.id
          versionNumber := maxV + 1
          normalizedData := snapData
          changeNote := d.changeNote }
      let updatedRow : EntityRow :=
        { current with
          data := newData
          isActive := d.isActive.getD current.isActive
          currentVersionId := some newVersion.id }
      (.ok updatedRow,
        { sourceState := fc.2
          entities := st.entities.map (fun e => if e.id == id then updatedRow else e)
          versions := st.versions ++ [newVersion]
          nextEntityId := st.nextEntityId
          nextVersionId := st.nextVersionId + 1 })

end EntityService

/-- The versions stored for one entity (in insertion order). -/
def versionsOf (st : EntityState) (eid : Nat) : List EntityVersion :=
  st.versions.filter (fun v => v.entityId == eid)

/-- Their version numbers, in insertion order. -/
def versionNumbersOf (st : EntityState) (eid : Nat) : List Nat :=
  (versionsOf st eid).map (fun v => v.versionNumber)

/-- Well-formedness carried by every reachable store: ids are below the
id counters (freshness of created ids). -/
structure EntityWF (st : EntityState) : Prop where
  entBound : ∀ e ∈ st.entities, e.id < st.nextEntityId
  verBound : ∀ v ∈ st.versions, v.id < st.nextVersionId
  verEnt : ∀ v ∈ st.versions, v.entityId < st.nextEntityId

/-- Per-entity invariant after `k` versions: the stored version numbers are
exactly `1,…,k` in order, the entity row is unique, and its
`currentVersionId` points at the version numbered `k`. -/
def EInv (st : EntityState) (eid : Nat) (k : Nat) : Prop :=
  versionNumbersOf st eid = List.range' 1 k
  ∧ ∃ er ver,
      st.entities.filter (fun e => e.id == eid) = [er]
      ∧ ver ∈ versionsOf st eid
      ∧ ver.versionNumber = k
      ∧ er.currentVersionId = some ver.id

/-- C5 helper: a predicate with a single filtered witness is found by
`find?`. -/
theorem find?_of_filter_singleton {α : Type} {p : α → Bool} :
    ∀ {l : List α} {a : α}, l.filter p = [a] → l.find? p = some a := by
  intro l
  induction l with
  | nil => intro a h; simp at h
  | cons x xs ih =>
      intro a h
      by_cases hx : p x = true
      · rw [List.filter_cons_of_pos hx] at h
        injection h with h1 h2
        rw [List.find?_cons_of_pos _ hx, h1]
      · rw [List.filter_cons_of_neg hx] at h
        rw [List.find?_cons_of_neg _ hx]
        exact ih h

/-- C5 helper: replacing the unique row matched by a key predicate replaces
the filtered singleton. -/
theorem filter_map_replace {α : Type} (p : α → Bool) (new : α)
    (hnew : p new = true) :
    ∀ {l : List α} {er : α}, l.filter p = [er] →
      (l.map (fun e => if p e then new else e)).filter p = [new] := by
  intro l
  induction l with
  | nil => intro er h; simp at h
  | cons x xs ih =>
      intro er h
      by_cases hx : p x = true
      · rw [List.filter_cons_of_pos hx] at h
        injection h with h1 h2
        rw [List.map_cons, if_pos hx, List.filter_cons_of_pos hnew]
        have hxs : (xs.map (fun e => if p e then new else e)).filter p = [] := by
          rw [List.filter_eq_nil]
          intro y hy
          rcases List.mem_map.mp hy with ⟨z, hz, rfl⟩
          by_cases hz2 : p z = true
          · exact absurd (List.mem_filter.mpr ⟨hz, hz2⟩) (by rw [h2]; simp)
          · rw [if_neg hz2]
            exact hz2
        rw [hxs]
      · rw [List.filter_cons_of_neg hx] at h
        rw [List.map_cons, if_neg hx, List.filter_cons_of_neg hx]
        exact ih h

/-- C5 helper: `foldr max` over an arbitrary seed. -/
theorem foldr_max_init (l : List Nat) (a : Nat) :
    l.foldr max a = max (l.foldr max 0) a := by
  induction l with
  | nil => simp
  | cons x xs ih =>
      simp only [List.foldr_cons, ih]
      omega

/-- C5 helper: the maximum of `1,…,k` is `k`. -/
theorem foldr_max_range' : ∀ k : Nat, (List.range' 1 k).foldr max 0 = k := by
  intro k
  induction k with
  | zero => rfl
  | succ n ih =>
      rw [List.range'_concat, List.foldr_append]
      simp only [List.foldr_cons, List.foldr_nil]
      rw [foldr_max_init, ih]
      omega

/-- C5 helper: `create` establishes the per-entity invariant at version 1
for the fresh entity id, and preserves well-formedness. -/
theorem create_EInv (st : EntityState) (d : CreateEntityInput)
    (hwf : EntityWF st) :
    EntityWF (EntityService.create st d).2
    ∧ (EntityService.create st d).1.id = st.nextEntityId
    ∧ EInv (EntityService.create st d).2 st.nextEntityId 1 := by
  unfold EntityService.create
  dsimp only
  have hentnil : st.entities.filter (fun e => e.id == st.nextEntityId) = [] := by
    rw [List.filter_eq_nil]
    intro e he
    have := hwf.entBound e he
    simp
    omega
  have hvernil : st.versions.filter (fun v => v.entityId == st.nextEntityId) = [] := by
    rw [List.filter_eq_nil]
    intro v hv
    have := hwf.verEnt v hv
    simp
    omega
  refine ⟨⟨?_, ?_, ?_⟩, rfl, ?_, ?_⟩
  · dsimp only
    intro e he
    rcases List.mem_map.mp he with ⟨x, hx, rfl⟩
    rcases List.mem_append.mp hx with hx | hx
    · have := hwf.entBound x hx
      by_cases hid : (x.id == st.nextEntityId) = true
      · rw [if_pos hid]
        dsimp only
        omega
      · rw [if_neg hid]
        omega
    · rcases List.mem_singleton.mp hx with rfl
      rw [if_pos (by simp)]
      dsimp only
      omega
  · dsimp only
    intro v hv
    rcases List.mem_append.mp hv with hv | hv
    · have := hwf.verBound v hv
      omega
    · rcases List.mem_singleton.mp hv with rfl
      dsimp only
      omega
  · dsimp only
    intro v hv
    rcases List.mem_append.mp hv with hv | hv
    · have := hwf.verEnt v hv
      omega
    · rcases List.mem_singleton.mp hv with rfl
      dsimp only
      omega
  · unfold versionNumbersOf versionsOf
    dsimp only
    rw [List.filter_append, hvernil]
    simp [List.range']
  · refine ⟨⟨st.nextEntityId,
        ⟨d.name, applyClearable d.address none, d.city, d.country,
          applyClearable d.vatId none, applyClearable d.phone none,
          applyClearable d.website none⟩, true, some st.nextVersionId⟩,
      ⟨st.nextVersionId, st.nextEntityId,
        (SourceService.findOrCreate st.sourceState d.source).1.id, 1,
        ⟨d.name, applyClearable d.address none, d.city, d.country,
          applyClearable d.vatId none, applyClearable d.phone none,
          applyClearable d.website none⟩, none⟩, ?_, ?_, rfl, rfl⟩
    · have hsing : (st.entities ++
          [(⟨st.nextEntityId,
            ⟨d.name, applyClearable d.address none, d.city, d.country,
              applyClearable d.vatId none, applyClearable d.phone none,
              applyClearable d.website none⟩, true, none⟩ : EntityRow)]).filter
            (fun e => e.id == st.nextEntityId)
          = [(⟨st.nextEntityId,
            ⟨d.name, applyClearable d.address none, d.city, d.country,
              applyClearable d.vatId none, applyClearable d.phone none,
              applyClearable d.website none⟩, true, none⟩ : EntityRow)] := by
        rw [List.filter_append, hentnil]
        simp
      exact filter_map_replace (fun e : EntityRow => e.id == st.nextEntityId) _
        (by simp) hsing
    · unfold versionsOf
      dsimp only
      rw [List.filter_append, hvernil]
      simp

/-- C5 helper: `update` on an entity satisfying the invariant at `k`
succeeds, preserves well-formedness, and re-establishes the invariant at
`k + 1` (new version number `max + 1 = k + 1`, pointer repointed). -/
theorem update_EInv (st : EntityState) (eid : Nat) (d : UpdateEntityInput)
    (k : Nat) (hwf : EntityWF st) (hinv : EInv st eid k) :
    EntityWF (EntityService.update st eid d).2
    ∧ EInv (EntityService.update st eid d).2 eid (k + 1)
    ∧ ∃ er, (EntityService.update st eid d).1 = Except.ok er := by
  obtain ⟨hnum, er, ver, hfilter, hvmem, hvnum, hptr⟩ := hinv
  have hfind : st.entities.find? (fun e => e.id == eid) = some er :=
    find?_of_filter_singleton hfilter
  have hermem0 : er ∈ st.entities.filter (fun e => e.id == eid) := by
    rw [hfilter]; exact List.mem_singleton.mpr rfl
  have herid : (er.id == eid) = true := (List.mem_filter.mp hermem0).2
  have hermem : er ∈ st.entities := (List.mem_filter.mp hermem0).1
  have heid : er.id = eid := by simpa using herid
  have hnum' : (st.versions.filter (fun v => v.entityId == eid)).map
      (fun v => v.versionNumber) = List.range' 1 k := hnum
  have hmax : ((st.versions.filter (fun v => v.entityId == eid)).map
      (fun v => v.versionNumber)).foldr max 0 = k := by
    rw [hnum']
    exact foldr_max_range' k
  unfold EntityService.update
  rw [hfind]
  dsimp only
  rw [hmax]
  have hvernil : ∀ v ∈ st.versions, (v.entityId == eid) = true →
      v.versionNumber ∈ List.range' 1 k := by
    intro v hv hvid
    rw [← hnum']
    exact List.mem_map.mpr ⟨v, List.mem_filter.mpr ⟨hv, hvid⟩, rfl⟩
  refine ⟨⟨?_, ?_, ?_⟩, ⟨?_, ?_⟩, ⟨_, rfl⟩⟩
  · dsimp only
    intro e he
    rcases List.mem_map.mp he with ⟨x, hx, rfl⟩
    have hxb := hwf.entBound x hx
    have herb := hwf.entBound er hermem
    by_cases hid : (x.id == eid) = true
    · rw [if_pos hid]
      dsimp only
      omega
    · rw [if_neg hid]
      omega
  · dsimp only
    intro v hv
    rcases List.mem_append.mp hv with hv | hv
    · have := hwf.verBound v hv
      omega
    · rcases List.mem_singleton.mp hv with rfl
      dsimp only
      omega
  · dsimp only
    intro v hv
    rcases List.mem_append.mp hv with hv | hv
    · have := hwf.verEnt v hv
      omega
    · rcases List.mem_singleton.mp hv with rfl
      dsimp only
      have := hwf.entBound er hermem
      omega
  · unfold versionNumbersOf versionsOf
    dsimp only
    rw [List.filter_append]
    rw [List.map_append, hnum']
    have hone : 1 + 1 * k = k + 1 := by omega
    rw [List.range'_concat, hone]
    congr 1
    simp
  · refine ⟨{ er with
        data := ⟨d.name.getD er.data.name,
          applyClearable d.address er.data.address,
          (match d.city with | none => er.data.city | some s => some s),
          d.country.getD er.data.country,
          applyClearable d.vatId er.data.vatId,
          applyClearable d.phone er.data.phone,
          applyClearable d.website er.data.website⟩
        isActive := d.isActive.getD er.isActive
        currentVersionId := some st.nextVersionId },
      ⟨st.nextVersionId, eid,
        (SourceService.findOrCreate st.sourceState d.source).1.id, k + 1,
        ⟨d.name.getD er.data.name, snapClearable d.address er.data.address,
          (match d.city with | none => er.data.city | some s => some s),
          d.country.getD er.data.country,
          snapClearable d.vatId er.data.vatId,
          snapClearable d.phone er.data.phone,
          snapClearable d.website er.data.website⟩,
        d.changeNote⟩, ?_, ?_, rfl, rfl⟩
    · exact filter_map_replace (fun e : EntityRow => e.id == eid) _
        (by simp [heid]) hfilter
    · unfold versionsOf
      dsimp only
      rw [List.filter_append]
      refine List.mem_append.mpr (Or.inr ?_)
      simp

/-- C5 helper: the state after a sequence of `update` calls on one entity. -/
def runUpdates (st : EntityState) (eid : Nat) (ds : List UpdateEntityInput) :
    EntityState :=
  ds.foldl (fun s d => (EntityService.update s eid d).2) st

/-- C5 helper: the invariant advances by one version per update. -/
theorem runUpdates_EInv :
    ∀ (ds : List UpdateEntityInput) (st : EntityState) (eid k : Nat),
      EntityWF st → EInv st eid k →
      EntityWF (runUpdates st eid ds)
        ∧ EInv (runUpdates st eid ds) eid (k + ds.length) := by
  intro ds
  induction ds with
  | nil =>
      intro st eid k hwf hinv
      exact ⟨hwf, hinv⟩
  | cons d ds ih =>
      intro st eid k hwf hinv
      obtain ⟨hwf1, hinv1, _⟩ := update_EInv st eid d k hwf hinv
      have hstep := ih (EntityService.update st eid d).2 eid (k + 1) hwf1 hinv1
      have hlen : k + 1 + ds.length = k + (ds.length + 1) := by omega
      rw [hlen] at hstep
      exact hstep

/-- C5: an entity created by `create` and then mutated by any sequence of
(sequentially applied) `update` calls stores version numbers exactly
`1, …, n+1` — no gaps, no duplicates — and its `currentVersionId` references
a stored version of that entity holding the maximum version number. -/
theorem entity_version_invariant (st₀ : EntityState) (d : CreateEntityInput)
    (ds : List UpdateEntityInput) (hwf : EntityWF st₀) :
    versionNumbersOf
        (runUpdates (EntityService.create st₀ d).2
          (EntityService.create st₀ d).1.id ds)
        (EntityService.create st₀ d).1.id
      = List.range' 1 (ds.length + 1)
    ∧ ∃ er ver,
        (runUpdates (EntityService.create st₀ d).2
            (EntityService.create st₀ d).1.id ds).entities.filter
            (fun e => e.id == (EntityService.create st₀ d).1.id) = [er]
        ∧ ver ∈ versionsOf
            (runUpdates (EntityService.create st₀ d).2
              (EntityService.create st₀ d).1.id ds)
            (EntityService.create st₀ d).1.id
        ∧ ver.versionNumber = ds.length + 1
        ∧ er.currentVersionId = some ver.id
        ∧ (∀ w ∈ versionsOf
              (runUpdates (EntityService.create st₀ d).2
                (EntityService.create st₀ d).1.id ds)
              (EntityService.create st₀ d).1.id,
            w.versionNumber ≤ ver.versionNumber) := by
  obtain ⟨hwf1, hid, hinv1⟩ := create_EInv st₀ d hwf
  rw [hid]
  obtain ⟨hwfN, hinvN⟩ :=
    runUpdates_EInv ds (EntityService.create st₀ d).2 st₀.nextEntityId 1 hwf1 hinv1
  have hl : 1 + ds.length = ds.length + 1 := by omega
  rw [hl] at hinvN
  obtain ⟨hnum, er, ver, hfilter, hvmem, hvnum, hptr⟩ := hinvN
  refine ⟨hnum, er, ver, hfilter, hvmem, hvnum, hptr, ?_⟩
  intro w hw
  have hwmem : w.versionNumber ∈ List.range' 1 (ds.length + 1) := by
    rw [← hnum]
    exact List.mem_map.mpr ⟨w, hw, rfl⟩
  have hbound := (List.mem_range'_1.mp hwmem).2
  omega

/-- C5 witness: create an entity then run one update in the empty store —
versions `[1, 2]`, pointer on the version numbered 2. -/
theorem entity_version_invariant_witness :
    versionNumbersOf
        (runUpdates (EntityService.create ⟨⟨[], 0⟩, [], [], 0, 0⟩
            ⟨"ACME", "PL", none, none, none, none, none,
              ⟨.COMMUNITY, none, none, none, none⟩⟩).2
          (EntityService.create ⟨⟨[], 0⟩, [], [], 0, 0⟩
            ⟨"ACME", "PL", none, none, none, none, none,
              ⟨.COMMUNITY, none, none, none, none⟩⟩).1.id
          [⟨some "ACME2", none, none, none, none, none, none, none, none,
            ⟨.COMMUNITY, none, none, none, none⟩⟩])
        (EntityService.create ⟨⟨[], 0⟩, [], [], 0, 0⟩
            ⟨"ACME", "PL", none, none, none, none, none,
              ⟨.COMMUNITY, none, none, none, none⟩⟩).1.id
      = List.range' 1 2
    ∧ ∃ er ver,
        (runUpdates (EntityService.create ⟨⟨[], 0⟩, [], [], 0, 0⟩
            ⟨"ACME", "PL", none, none, none, none, none,
              ⟨.COMMUNITY, none, none, none, none⟩⟩).2
          (EntityService.create ⟨⟨[], 0⟩, [], [], 0, 0⟩
            ⟨"ACME", "PL", none, none, none, none, none,
              ⟨.COMMUNITY, none, none, none, none⟩⟩).1.id
          [⟨some "ACME2", none, none, none, none, none, none, none, none,
            ⟨.COMMUNITY, none, none, none, none⟩⟩]).entities.filter
            (fun e => e.id == (EntityService.create ⟨⟨[], 0⟩, [], [], 0, 0⟩
              ⟨"ACME", "PL", none, none, none, none, none,
                ⟨.COMMUNITY, none, none, none, none⟩⟩).1.id) = [er]
        ∧ ver ∈ versionsOf
            (runUpdates (EntityService.create ⟨⟨[], 0⟩, [], [], 0, 0⟩
                ⟨"ACME", "PL", none, none, none, none, none,
                  ⟨.COMMUNITY, none, none, none, none⟩⟩).2
              (EntityService.create ⟨⟨[], 0⟩, [], [], 0, 0⟩
                ⟨"ACME", "PL", none, none, none, none, none,
                  ⟨.COMMUNITY, none, none, none, none⟩⟩).1.id
              [⟨some "ACME2", none, none, none, none, none, none, none, none,
                ⟨.COMMUNITY, none, none, none, none⟩⟩])
            (EntityService.create ⟨⟨[], 0⟩, [], [], 0, 0⟩
              ⟨"ACME", "PL", none, none, none, none, none,
                ⟨.COMMUNITY, none, none, none, none⟩⟩).1.id
        ∧ ver.versionNumber = 2
        ∧ er.currentVersionId = some ver.id
        ∧ (∀ w ∈ versionsOf
              (runUpdates (EntityService.create ⟨⟨[], 0⟩, [], [], 0, 0⟩
                  ⟨"ACME", "PL", none, none, none, none, none,
                    ⟨.COMMUNITY, none, none, none, none⟩⟩).2
                (EntityService.create ⟨⟨[], 0⟩, [], [], 0, 0⟩
                  ⟨"ACME", "PL", none, none, none, none, none,
                    ⟨.COMMUNITY, none, none, none, none⟩⟩).1.id
                [⟨some "ACME2", none, none, none, none, none, none, none, none,
                  ⟨.COMMUNITY, none, none, none, none⟩⟩])
              (EntityService.create ⟨⟨[], 0⟩, [], [], 0, 0⟩
                ⟨"ACME", "PL", none, none, none, none, none,
                  ⟨.COMMUNITY, none, none, none, none⟩⟩).1.id,
            w.versionNumber ≤ ver.versionNumber) :=
  entity_version_invariant ⟨⟨[], 0⟩, [], [], 0, 0⟩
    ⟨"ACME", "PL", none, none, none, none, none,
      ⟨.COMMUNITY, none, none, none, none⟩⟩
    [⟨some "ACME2", none, none, none, none, none, none, none, none,
      ⟨.COMMUNITY, none, none, none, none⟩⟩]
    ⟨(by intro e he; cases he), (by intro v hv; cases hv), (by intro v hv; cases hv)⟩

end OpenGPSR
